import Mathlib

/-!
Verification development for the dyn-advisor repository: a shallow embedding
of the catalog, parser and recommendation-engine core
(src/dyn_advisor/catalog.py, parser.py, recommender.py) together with
theorems settling the frozen specification claims.

Modelling conventions:
  - Python strings are Lean `String`; `str.lower()` is modelled by mapping
    `Char.toLower` over the characters (faithful on the ASCII data the
    program handles); the substring test `a in b` is an explicit
    character-list containment check.
  - Python floats only ever hold small integer values here (all weights are
    whole numbers, so every float arithmetic step of the source is exact),
    and scores are modelled exactly as `Int`.
  - Mutation of the local accumulators of `_score_graph` (`score += ...`,
    `reasons.append(...)`) is modelled by threading the accumulated pair
    through one step function per source statement block, in source order.
  - `list.sort(key=..., reverse=True)` is Python's stable sort; it is
    modelled by the stable `List.insertionSort` with the corresponding
    (total, transitive) descending relation, which agrees with every stable
    sort extensionally.
-/

/-- Single-quote character as a string, used to build the explanation
clauses that quote a graph or category name. -/
def apos : String := String.mk [Char.ofNat 39]

/-- Lower-casing of a string, character by character: model of Python
`str.lower()` on the ASCII data handled by the program. -/
def lowerStr (s : String) : String := String.mk (s.data.map Char.toLower)

/-- Test whether the first character list is an initial segment of the
second. -/
def startsWithL : List Char → List Char → Bool
  | [], _ => true
  | _ :: _, [] => false
  | a :: as, b :: bs => a == b && startsWithL as bs

/-- Test whether the first character list occurs contiguously inside the
second. -/
def containsL (p : List Char) : List Char → Bool
  | [] => p.isEmpty
  | c :: rest => startsWithL p (c :: rest) || containsL p rest

/-- Model of the Python substring test `needle in hay`. -/
def strIn (needle hay : String) : Bool := containsL needle.data hay.data

/-- Characters matched by the regular expression class backslash-w on the
ASCII data handled by the program: letters, digits and underscore. -/
def isWordChar (c : Char) : Bool := c.isAlphanum || c == '_'

/-- One step of the tokenizer fold: extend the current run on a word
character, otherwise close the pending run (if any). -/
def tokensStep (acc : List (List Char) × List Char) (c : Char) :
    List (List Char) × List Char :=
  if isWordChar c then (acc.1, acc.2 ++ [c])
  else if acc.2.isEmpty then acc else (acc.1 ++ [acc.2], [])

/-- Maximal runs of word characters of a character list: model of
`re.findall` with the word-run pattern. -/
def wordRuns (cs : List Char) : List (List Char) :=
  let r := cs.foldl tokensStep ([], [])
  if r.2.isEmpty then r.1 else r.1 ++ [r.2]

/-- All word tokens of a string, in order, duplicates kept. -/
def tokens (s : String) : List String := (wordRuns s.data).map String.mk

/-- Token set of a string: the distinct word tokens, modelling
`set(re.findall(..))`. -/
def tokenSet (s : String) : List String := (tokens s).dedup

/-- Size of the intersection of two token sets, the first list assumed
duplicate-free: models `len(set_a & set_b)`. -/
def interCount (a b : List String) : Nat :=
  (a.filter (fun w => b.contains w)).length

/-- One node of a graph record, from parser.py: `name`, `type` (the source
key `ConcreteType`) and `id`. -/
structure NodeInfo where
  name : String
  type : String
  id : String
deriving Repr, DecidableEq

/-- One indexed graph record, as produced by `DynParser.parse_dyn_file`
(the `view` entry is carried through by the source but never read by the
catalog or the scorer, so it is omitted from the model). -/
structure GraphRecord where
  filepath : String
  filename : String
  name : String
  description : String
  uuid : String
  author : String
  category : String
  nodes : List NodeInfo
  node_count : Nat
  connector_count : Nat
deriving Repr, DecidableEq

/-- Token set of the lower-cased query: the `intent_words` local of
`RecommendationEngine._score_graph`. -/
def intentWords (q : String) : List String := tokenSet (lowerStr q)

/-- The `name_overlap` local of `_score_graph`: size of the intersection of
query tokens and name tokens. -/
def nameOverlap (g : GraphRecord) (q : String) : Nat :=
  interCount (intentWords q) (tokenSet (lowerStr g.name))

/-- The condition of the exact-name-match bonus of `_score_graph`: the
lower-cased query occurs in the lower-cased name or conversely. -/
def nameSubstr (g : GraphRecord) (q : String) : Bool :=
  strIn (lowerStr q) (lowerStr g.name) || strIn (lowerStr g.name) (lowerStr q)

/-- The `desc_overlap` local of `_score_graph`. -/
def descOverlap (g : GraphRecord) (q : String) : Nat :=
  interCount (intentWords q) (tokenSet (lowerStr g.description))

/-- The `category_overlap` local of `_score_graph`. -/
def catOverlap (g : GraphRecord) (q : String) : Nat :=
  interCount (intentWords q) (tokenSet (lowerStr g.category))

/-- The `node_matches` local of `_score_graph`: number of nodes whose
lower-cased name or type contains some query token, each node counted at
most once (the source's inner loop breaks at the first matching token). -/
def nodeMatches (g : GraphRecord) (q : String) : Nat :=
  (g.nodes.filter (fun node =>
    (intentWords q).any (fun w =>
      strIn w (lowerStr node.name) || strIn w (lowerStr node.type)))).length

/-- The complexity-keyword test of `_score_graph`. -/
def complexityHit (q : String) : Bool :=
  ["complex", "advanced", "detailed", "comprehensive"].any
    (fun kw => strIn kw (lowerStr q))

/-- The simplicity-keyword test of `_score_graph`. -/
def simplicityHit (q : String) : Bool :=
  ["simple", "basic", "easy", "quick", "minimal"].any
    (fun kw => strIn kw (lowerStr q))

/-- Statement block 1 of `_score_graph` (name word overlap), applied to the
initial accumulator `(0, [])`. -/
def step1 (g : GraphRecord) (q : String) : Int × List String :=
  if 0 < nameOverlap g q then
    ((nameOverlap g q : Int) * 10, ["name matches " ++ apos ++ g.name ++ apos])
  else (0, [])

/-- Statement block 2 of `_score_graph`: exact name match bonus. -/
def step2 (g : GraphRecord) (q : String) (p : Int × List String) :
    Int × List String :=
  if nameSubstr g q then (p.1 + 20, p.2 ++ ["name closely matches query"])
  else p

/-- Statement block 3 of `_score_graph`: description word overlap, guarded
by the truthiness test on the lower-cased description. -/
def step3 (g : GraphRecord) (q : String) (p : Int × List String) :
    Int × List String :=
  if lowerStr g.description ≠ "" then
    (if 0 < descOverlap g q then
      (p.1 + (descOverlap g q : Int) * 5,
       p.2 ++ ["description contains relevant keywords"])
    else p)
  else p

/-- Statement block 4 of `_score_graph`: category word overlap. -/
def step4 (g : GraphRecord) (q : String) (p : Int × List String) :
    Int × List String :=
  if 0 < catOverlap g q then
    (p.1 + (catOverlap g q : Int) * 7,
     p.2 ++ ["category " ++ apos ++ g.category ++ apos ++ " matches"])
  else p

/-- Statement block 5 of `_score_graph`: node relevance. -/
def step5 (g : GraphRecord) (q : String) (p : Int × List String) :
    Int × List String :=
  if 0 < nodeMatches g q then
    (p.1 + (nodeMatches g q : Int) * 3,
     p.2 ++ ["contains " ++ toString (nodeMatches g q) ++ " relevant node(s)"])
  else p

/-- Statement block 6 of `_score_graph`: complexity bonus (nested tests as
in the source). -/
def step6 (g : GraphRecord) (q : String) (p : Int × List String) :
    Int × List String :=
  if complexityHit q then
    (if 10 < g.node_count then
      (p.1 + 5, p.2 ++ ["complex graph with " ++ toString g.node_count ++ " nodes"])
    else p)
  else p

/-- Statement block 7 of `_score_graph`: simplicity bonus (nested tests as
in the source). -/
def step7 (g : GraphRecord) (q : String) (p : Int × List String) :
    Int × List String :=
  if simplicityHit q then
    (if g.node_count ≤ 5 then
      (p.1 + 5, p.2 ++ ["simple graph with " ++ toString g.node_count ++ " nodes"])
    else p)
  else p

/-- Final explanation rendering of `_score_graph`: the fired clauses joined
after "Recommended because", or the fixed no-match string. -/
def renderExplanation (reasons : List String) : String :=
  if reasons.isEmpty then "No specific match found."
  else "Recommended because " ++ String.intercalate ", " reasons ++ "."

/-- The accumulated (score, reasons) pair after the seven statement blocks
of `_score_graph`, applied in source order. -/
def scoreSteps (g : GraphRecord) (q : String) : Int × List String :=
  step7 g q (step6 g q (step5 g q (step4 g q (step3 g q
    (step2 g q (step1 g q))))))

/-- Embedding of `RecommendationEngine._score_graph` (recommender.py,
lines 65-147): the seven statement blocks applied in source order to the
accumulator, then the explanation rendering. -/
def score_graph (g : GraphRecord) (q : String) : Int × String :=
  ((scoreSteps g q).1, renderExplanation (scoreSteps g q).2)

/-- Specification-side signal 1: name word overlap times 10. -/
def sig1 (g : GraphRecord) (q : String) : Int := (nameOverlap g q : Int) * 10

/-- Specification-side signal 2: name substring bonus of 20. -/
def sig2 (g : GraphRecord) (q : String) : Int :=
  if nameSubstr g q then 20 else 0

/-- Specification-side signal 3: description word overlap times 5, counted
only when the description is non-empty. -/
def sig3 (g : GraphRecord) (q : String) : Int :=
  if g.description ≠ "" then (descOverlap g q : Int) * 5 else 0

/-- Specification-side signal 4: category word overlap times 7. -/
def sig4 (g : GraphRecord) (q : String) : Int := (catOverlap g q : Int) * 7

/-- Specification-side signal 5: matched-node count times 3. -/
def sig5 (g : GraphRecord) (q : String) : Int := (nodeMatches g q : Int) * 3

/-- Specification-side signal 6: complexity bonus of 5, requiring a
complexity keyword in the query and node count strictly above 10. -/
def sig6 (g : GraphRecord) (q : String) : Int :=
  if complexityHit q ∧ 10 < g.node_count then 5 else 0

/-- Specification-side signal 7: simplicity bonus of 5, requiring a
simplicity keyword in the query and node count at most 5. -/
def sig7 (g : GraphRecord) (q : String) : Int :=
  if simplicityHit q ∧ g.node_count ≤ 5 then 5 else 0

/-- Specification-side total score: the sum of the seven signals. -/
def specScore (g : GraphRecord) (q : String) : Int :=
  sig1 g q + sig2 g q + sig3 g q + sig4 g q + sig5 g q + sig6 g q + sig7 g q

/-- Clause of signal 1 when it fires, else empty. -/
def cl1 (g : GraphRecord) (q : String) : List String :=
  if 0 < nameOverlap g q then
    ["name matches " ++ apos ++ g.name ++ apos] else []

/-- Clause of signal 2 when it fires, else empty. -/
def cl2 (g : GraphRecord) (q : String) : List String :=
  if nameSubstr g q then ["name closely matches query"] else []

/-- Clause of signal 3 when it fires, else empty. -/
def cl3 (g : GraphRecord) (q : String) : List String :=
  if g.description ≠ "" ∧ 0 < descOverlap g q then
    ["description contains relevant keywords"] else []

/-- Clause of signal 4 when it fires, else empty. -/
def cl4 (g : GraphRecord) (q : String) : List String :=
  if 0 < catOverlap g q then
    ["category " ++ apos ++ g.category ++ apos ++ " matches"] else []

/-- Clause of signal 5 when it fires, else empty. -/
def cl5 (g : GraphRecord) (q : String) : List String :=
  if 0 < nodeMatches g q then
    ["contains " ++ toString (nodeMatches g q) ++ " relevant node(s)"]
  else []

/-- Clause of signal 6 when it fires, else empty. -/
def cl6 (g : GraphRecord) (q : String) : List String :=
  if complexityHit q ∧ 10 < g.node_count then
    ["complex graph with " ++ toString g.node_count ++ " nodes"] else []

/-- Clause of signal 7 when it fires, else empty. -/
def cl7 (g : GraphRecord) (q : String) : List String :=
  if simplicityHit q ∧ g.node_count ≤ 5 then
    ["simple graph with " ++ toString g.node_count ++ " nodes"] else []

/-- Specification-side clause list: for each signal, in order, the clause
it appends when it fires. -/
def specClauses (g : GraphRecord) (q : String) : List String :=
  cl1 g q ++ cl2 g q ++ cl3 g q ++ cl4 g q ++ cl5 g q ++ cl6 g q ++ cl7 g q

/-- Specification-side explanation string. -/
def specExplanation (g : GraphRecord) (q : String) : String :=
  if specClauses g q = [] then "No specific match found."
  else "Recommended because " ++ String.intercalate ", " (specClauses g q) ++ "."

/-- Descending score order used by `recommend`'s sort: an earlier element
must have a score at least the later one's. -/
def rOrder (x y : GraphRecord × Int × String) : Prop := y.2.1 ≤ x.2.1

instance : DecidableRel rOrder := fun x y => Int.decLe y.2.1 x.2.1

instance : IsTotal (GraphRecord × Int × String) rOrder :=
  ⟨fun a b => Int.le_total b.2.1 a.2.1⟩

instance : IsTrans (GraphRecord × Int × String) rOrder :=
  ⟨fun _ _ _ h1 h2 => le_trans h2 h1⟩

/-- The `scored_graphs` list of `RecommendationEngine.recommend`: each
catalog record with its score and explanation, kept when the score is
strictly positive, in catalog order. -/
def scoredGraphs (graphs : List GraphRecord) (q : String) :
    List (GraphRecord × Int × String) :=
  graphs.filterMap (fun g =>
    if 0 < (score_graph g q).1 then
      some (g, (score_graph g q).1, (score_graph g q).2)
    else none)

/-- Embedding of `RecommendationEngine.recommend` (recommender.py, lines
26-63): score every catalog record, keep strictly positive scores, sort by
score descending with Python's stable `list.sort` (modelled by the stable
insertion sort), truncate to `max_results`. The source's early return on an
empty catalog coincides with the general path. -/
def recommend (graphs : List GraphRecord) (q : String) (max_results : Nat) :
    List (GraphRecord × Int × String) :=
  (List.insertionSort rOrder (scoredGraphs graphs q)).take max_results

/-- The `searchable_text` local of `GraphCatalog.search_graphs`: name,
description and category separated by single spaces, then the node names
joined by single spaces, all lower-cased. -/
def searchableText (g : GraphRecord) : String :=
  lowerStr (g.name ++ " " ++ g.description ++ " " ++ g.category ++ " " ++
    String.intercalate " " (g.nodes.map (fun n => n.name)))

/-- Embedding of `GraphCatalog.search_graphs` (catalog.py, lines 95-118). -/
def search_graphs (graphs : List GraphRecord) (query : String) :
    List GraphRecord :=
  graphs.filter (fun g => strIn (lowerStr query) (searchableText g))

/-- The claim's reading of the searchable text: plain concatenation of
name, description, category and the node names, with no separators. -/
def plainConcat (g : GraphRecord) : String :=
  lowerStr (g.name ++ g.description ++ g.category ++
    String.join (g.nodes.map (fun n => n.name)))

/-- Embedding of `GraphCatalog.get_graph_by_name` (catalog.py, lines
80-93): first record whose lower-cased name equals the lower-cased
argument. -/
def get_graph_by_name (graphs : List GraphRecord) (name : String) :
    Option GraphRecord :=
  graphs.find? (fun g => lowerStr g.name == lowerStr name)

/-- One documentation record, from `DynParser.parse_documentation`. -/
structure DocRecord where
  filepath : String
  filename : String
  content : String
  size : Nat
deriving Repr, DecidableEq

/-- Abstraction of the file-system walk seen by `build_catalog`: whether
the graph repository root exists, the per-file results of
`parse_dyn_file` over the recursive walk (in walk order, `none` for a file
that fails to parse), whether the documentation path is configured and
exists, and the per-file results of `parse_documentation` (`none` for the
falsy empty dictionary returned on failure). -/
structure RepoFS where
  root_exists : Bool
  dyn_parses : List (Option GraphRecord)
  docs_exists : Bool
  doc_parses : List (Option DocRecord)

/-- Mutable state of a `GraphCatalog` instance: the `graphs` and `docs`
lists. -/
structure CatalogState where
  graphs : List GraphRecord
  docs : List DocRecord
deriving Repr, DecidableEq

/-- Embedding of `GraphCatalog.build_catalog` (catalog.py, lines 34-74):
reset `graphs`, return 0 on a missing root, otherwise collect the
successfully parsed graph records, append the successfully parsed
documentation records to the existing `docs` list, and return the number
of indexed graphs. -/
def build_catalog (fs : RepoFS) (st : CatalogState) : CatalogState × Nat :=
  let st1 : CatalogState := { st with graphs := [] }
  if fs.root_exists then
    let gs := fs.dyn_parses.filterMap id
    let st2 : CatalogState := { st1 with graphs := gs }
    let st3 : CatalogState :=
      if fs.docs_exists then
        { st2 with docs := st2.docs ++ fs.doc_parses.filterMap id }
      else st2
    (st3, gs.length)
  else (st1, 0)

/-- One entry of the `Nodes` list of a graph-definition file that is a
dictionary, with its optional keys. -/
structure NodeContent where
  name : Option String
  concreteType : Option String
  id : Option String

/-- The JSON content of a graph-definition file, restricted to the keys
`parse_dyn_file` reads: each field is `none` when the key is absent (for
`nodes`, also when the value is not a list, matching the `isinstance`
guard); a `nodes` entry is `none` when it is not a dictionary; `connectors`
holds the length of the `Connectors` list when present and a list. The
`View` key is carried through by the source but never read by the catalog
or the scorer, so it is omitted. -/
structure DynContent where
  name : Option String
  description : Option String
  uuid : Option String
  author : Option String
  category : Option String
  nodes : Option (List (Option NodeContent))
  connectors : Option Nat

/-- Record extraction of `DynParser.parse_dyn_file` (parser.py, lines
34-75) on successfully decoded JSON content. -/
def extract_record (filepath filename stem : String) (content : DynContent) :
    GraphRecord :=
  { filepath := filepath
    filename := filename
    name := content.name.getD stem
    description := content.description.getD ""
    uuid := content.uuid.getD ""
    author := content.author.getD ""
    category := content.category.getD "Uncategorized"
    nodes := (content.nodes.getD []).filterMap (fun o => o.map (fun n =>
      { name := n.name.getD "", type := n.concreteType.getD "",
        id := n.id.getD "" }))
    node_count := (content.nodes.getD []).length
    connector_count := content.connectors.getD 0 }

/-- Embedding of `DynParser.parse_dyn_file` (parser.py, lines 20-84): the
`try`/`except` around reading and decoding the file is modelled by the
`Option` argument, `none` when decoding raises. -/
def parse_dyn_file (filepath filename stem : String)
    (parsed : Option DynContent) : Option GraphRecord :=
  parsed.map (extract_record filepath filename stem)

/-- The "Simple Rectangle" record of the claim C9 scenario. -/
def srRecord : GraphRecord :=
  { filepath := "", filename := "", name := "Simple Rectangle",
    description := "", uuid := "", author := "", category := "",
    nodes := [], node_count := 3, connector_count := 0 }

/-- The "Complex Wall Analysis" record of the claim C9 scenario, with
node count exactly 10. -/
def cwaRecord : GraphRecord :=
  { filepath := "", filename := "", name := "Complex Wall Analysis",
    description := "", uuid := "", author := "", category := "",
    nodes := [], node_count := 10, connector_count := 0 }

/-- A small concrete record used by witnesses. -/
def testRecord : GraphRecord :=
  { filepath := "/tmp/test.dyn", filename := "test.dyn", name := "Test Graph",
    description := "A test description", uuid := "", author := "",
    category := "Testing", nodes := [], node_count := 0,
    connector_count := 0 }

/-- A record whose name and description abut: used to separate the
space-separated searchable text from the plain concatenation. -/
def abRecord : GraphRecord :=
  { filepath := "", filename := "", name := "ab", description := "cd",
    uuid := "", author := "", category := "", nodes := [], node_count := 0,
    connector_count := 0 }

/-- A concrete pre-existing documentation record. -/
def oldDoc : DocRecord :=
  { filepath := "/docs/old.md", filename := "old.md", content := "old",
    size := 3 }

/-- A concrete documentation record produced by a current walk. -/
def newDoc : DocRecord :=
  { filepath := "/docs/new.md", filename := "new.md", content := "new",
    size := 3 }

/-- Graph-definition content with no Name key. -/
def noNameContent : DynContent :=
  { name := none, description := none, uuid := none, author := none,
    category := none, nodes := none, connectors := none }

/-- Graph-definition content whose Name key is present but empty. -/
def emptyNameContent : DynContent :=
  { name := some "", description := none, uuid := none, author := none,
    category := none, nodes := none, connectors := none }

/-- Graph-definition content with a non-empty Name value. -/
def namedContent : DynContent :=
  { name := some "Named", description := none, uuid := none, author := none,
    category := none, nodes := none, connectors := none }

/-- A file-system view whose graph repository root does not exist. -/
def fsMissing : RepoFS :=
  { root_exists := false, dyn_parses := [some srRecord],
    docs_exists := false, doc_parses := [] }

/-- A file-system view with one good graph file followed by one file that
fails to parse. -/
def fsSkip : RepoFS :=
  { root_exists := true, dyn_parses := [some srRecord, none],
    docs_exists := false, doc_parses := [] }

/-- A file-system view whose current walk yields no graphs and one
documentation record. -/
def fsDocs : RepoFS :=
  { root_exists := true, dyn_parses := [], docs_exists := true,
    doc_parses := [some newDoc] }

/-- A catalog state populated by an earlier rebuild. -/
def stPrior : CatalogState := { graphs := [srRecord], docs := [oldDoc] }

/-- Lower-casing preserves emptiness of a string. -/
theorem lowerStr_eq_empty_iff (s : String) : lowerStr s = "" ↔ s = "" := by
  cases s with
  | mk data =>
    constructor
    · intro h
      have hd : data.map Char.toLower = [] := congrArg String.data h
      have : data = [] := List.map_eq_nil_iff.mp hd
      simp [this]
    · intro h
      have : data = [] := congrArg String.data h
      simp [lowerStr, this]

/-- The first statement block produces signal 1 and its clause list. -/
theorem step1_eq (g : GraphRecord) (q : String) :
    step1 g q = (sig1 g q, cl1 g q) := by
  unfold step1 sig1 cl1
  split
  · rfl
  · next h =>
    have : nameOverlap g q = 0 := Nat.eq_zero_of_not_pos h
    simp [this]

/-- Statement block 2 adds signal 2 and appends its clause list. -/
theorem step2_eq (g : GraphRecord) (q : String) (p : Int × List String) :
    step2 g q p = (p.1 + sig2 g q, p.2 ++ cl2 g q) := by
  unfold step2 sig2 cl2
  split <;> simp

/-- Statement block 3 adds signal 3 and appends its clause list. -/
theorem step3_eq (g : GraphRecord) (q : String) (p : Int × List String) :
    step3 g q p = (p.1 + sig3 g q, p.2 ++ cl3 g q) := by
  unfold step3 sig3 cl3
  by_cases hd : g.description = ""
  · have h1 : ¬ lowerStr g.description ≠ "" := by
      simp [lowerStr_eq_empty_iff, hd]
    have h2 : ¬ g.description ≠ "" := by simp [hd]
    have h3 : ¬ (g.description ≠ "" ∧ 0 < descOverlap g q) := fun hc => h2 hc.1
    rw [if_neg h1, if_neg h2, if_neg h3]
    simp
  · have h1 : lowerStr g.description ≠ "" :=
      fun h => hd ((lowerStr_eq_empty_iff _).mp h)
    rw [if_pos h1, if_pos hd]
    by_cases ho : 0 < descOverlap g q
    · rw [if_pos ho, if_pos ⟨hd, ho⟩]
    · have h0 : descOverlap g q = 0 := Nat.eq_zero_of_not_pos ho
      have h3 : ¬ (g.description ≠ "" ∧ 0 < descOverlap g q) := fun hc => ho hc.2
      rw [if_neg ho, if_neg h3]
      simp [h0]

/-- Statement block 4 adds signal 4 and appends its clause list. -/
theorem step4_eq (g : GraphRecord) (q : String) (p : Int × List String) :
    step4 g q p = (p.1 + sig4 g q, p.2 ++ cl4 g q) := by
  unfold step4 sig4 cl4
  split
  · simp
  · next h =>
    have : catOverlap g q = 0 := Nat.eq_zero_of_not_pos h
    simp [this, h]

/-- Statement block 5 adds signal 5 and appends its clause list. -/
theorem step5_eq (g : GraphRecord) (q : String) (p : Int × List String) :
    step5 g q p = (p.1 + sig5 g q, p.2 ++ cl5 g q) := by
  unfold step5 sig5 cl5
  split
  · simp
  · next h =>
    have : nodeMatches g q = 0 := Nat.eq_zero_of_not_pos h
    simp [this, h]

/-- Statement block 6 adds signal 6 and appends its clause list. -/
theorem step6_eq (g : GraphRecord) (q : String) (p : Int × List String) :
    step6 g q p = (p.1 + sig6 g q, p.2 ++ cl6 g q) := by
  unfold step6 sig6 cl6
  by_cases hc : complexityHit q
  · by_cases hn : 10 < g.node_count
    · rw [if_pos hc, if_pos hn]
      simp [hc, hn]
    · rw [if_pos hc, if_neg hn]
      simp [hn]
  · rw [if_neg hc]
    simp [hc]

/-- Statement block 7 adds signal 7 and appends its clause list. -/
theorem step7_eq (g : GraphRecord) (q : String) (p : Int × List String) :
    step7 g q p = (p.1 + sig7 g q, p.2 ++ cl7 g q) := by
  unfold step7 sig7 cl7
  by_cases hs : simplicityHit q
  · by_cases hn : g.node_count ≤ 5
    · rw [if_pos hs, if_pos hn]
      simp [hs, hn]
    · rw [if_pos hs, if_neg hn]
      simp [hn]
  · rw [if_neg hs]
    simp [hs]

set_option maxHeartbeats 1600000 in
/-- Helper: the scorer agrees with the specification-side decomposition
into seven additive signals and their clause list. -/
theorem score_graph_eq_spec (g : GraphRecord) (q : String) :
    score_graph g q = (specScore g q, specExplanation g q) := by
  have hsteps : scoreSteps g q = (specScore g q, specClauses g q) := by
    unfold scoreSteps
    rw [step1_eq, step2_eq, step3_eq, step4_eq, step5_eq, step6_eq, step7_eq]
    unfold specScore specClauses
    refine Prod.ext ?_ ?_
    · simp
    · simp [List.append_assoc]
  have hrender : renderExplanation (specClauses g q) = specExplanation g q := by
    unfold renderExplanation specExplanation
    by_cases h : specClauses g q = []
    · simp [h]
    · simp [h, List.isEmpty_iff]
  unfold score_graph
  rw [hsteps]
  exact Prod.ext rfl hrender

/-- Each signal is non-negative, hence so is the total score. -/
theorem specScore_nonneg (g : GraphRecord) (q : String) :
    0 ≤ specScore g q := by
  unfold specScore sig1 sig2 sig3 sig4 sig5 sig6 sig7
  split_ifs <;> positivity

/-- C1: for every record and query, the score is the sum of the seven
signals, in the specified order with the exact weights, and the explanation
is "Recommended because " followed by the fired clauses joined by ", " and
a final "."; when no signal fires the explanation is exactly
"No specific match found." and the score is 0 (the empty clause list forces
the zero-score branch of every conditional signal, and conversely). -/
theorem C1_score_is_signal_sum (g : GraphRecord) (q : String) :
    score_graph g q = (specScore g q, specExplanation g q) :=
  score_graph_eq_spec g q

section StableSort

variable {α : Type _} (r : α → α → Prop) [DecidableRel r] (p : α → Bool)

/-- Inserting an element selected by `p` that the relation puts before
every selected element adds it to the front of the filtered list. -/
theorem filter_orderedInsert_pos (x : α) (hx : p x = true)
    (hcomp : ∀ y, p y = true → r x y) (l : List α) :
    (List.orderedInsert r x l).filter p = x :: l.filter p := by
  induction l with
  | nil => simp [hx]
  | cons y ys ih =>
    by_cases hr : r x y
    · simp only [List.orderedInsert, if_pos hr]
      simp [hx]
    · have hpy : p y = false := by
        cases hyy : p y
        · rfl
        · exact absurd (hcomp y hyy) hr
      simp only [List.orderedInsert, if_neg hr]
      simp [List.filter_cons, hpy, ih]

/-- Inserting an element rejected by `p` leaves the filtered list
unchanged. -/
theorem filter_orderedInsert_neg (x : α) (hx : p x = false) (l : List α) :
    (List.orderedInsert r x l).filter p = l.filter p := by
  induction l with
  | nil => simp [hx]
  | cons y ys ih =>
    by_cases hr : r x y
    · simp only [List.orderedInsert, if_pos hr]
      simp [List.filter_cons, hx]
    · simp only [List.orderedInsert, if_neg hr]
      simp [List.filter_cons, ih]

/-- Stability of insertion sort: when the relation holds between any two
elements selected by `p`, sorting does not change the filtered list. -/
theorem filter_insertionSort_stable
    (hcomp : ∀ x y, p x = true → p y = true → r x y) (l : List α) :
    (List.insertionSort r l).filter p = l.filter p := by
  induction l with
  | nil => rfl
  | cons x xs ih =>
    simp only [List.insertionSort]
    cases hx : p x
    · rw [filter_orderedInsert_neg r p x hx, ih]
      simp [List.filter_cons, hx]
    · rw [filter_orderedInsert_pos r p x hx (fun y hy => hcomp x y hx hy), ih]
      simp [List.filter_cons, hx]

end StableSort

/-- The scored list of a catalog headed by `g` keeps `g`'s entry exactly
when its score is positive. -/
theorem scoredGraphs_cons (g : GraphRecord) (gs : List GraphRecord)
    (q : String) :
    scoredGraphs (g :: gs) q =
      if 0 < (score_graph g q).1 then
        (g, (score_graph g q).1, (score_graph g q).2) :: scoredGraphs gs q
      else scoredGraphs gs q := by
  unfold scoredGraphs
  rw [List.filterMap_cons]
  by_cases h : 0 < (score_graph g q).1
  · rw [if_pos h, if_pos h]
  · rw [if_neg h, if_neg h]

/-- Every entry of the scored list has a strictly positive score. -/
theorem scoredGraphs_pos (graphs : List GraphRecord) (q : String) :
    ∀ x ∈ scoredGraphs graphs q, 0 < x.2.1 := by
  induction graphs with
  | nil => intro x hx; simp [scoredGraphs] at hx
  | cons g gs ih =>
    intro x hx
    rw [scoredGraphs_cons] at hx
    by_cases h : 0 < (score_graph g q).1
    · rw [if_pos h] at hx
      rcases List.mem_cons.mp hx with rfl | hx
      · exact h
      · exact ih x hx
    · rw [if_neg h] at hx
      exact ih x hx

/-- Any filtered selection of the scored list projects to a sublist of the
catalog, in catalog order. -/
theorem scoredGraphs_filter_fst_sublist (graphs : List GraphRecord)
    (q : String) (p : GraphRecord × Int × String → Bool) :
    List.Sublist (((scoredGraphs graphs q).filter p).map Prod.fst) graphs := by
  induction graphs with
  | nil => simp [scoredGraphs]
  | cons g gs ih =>
    rw [scoredGraphs_cons]
    by_cases h : 0 < (score_graph g q).1
    · rw [if_pos h, List.filter_cons]
      by_cases hp : p (g, (score_graph g q).1, (score_graph g q).2)
      · rw [if_pos hp]
        simpa using List.Sublist.cons₂ g ih
      · rw [if_neg hp]
        exact List.Sublist.cons g ih
    · rw [if_neg h]
      exact List.Sublist.cons g ih

/-- If no catalog record scores positively the scored list is empty. -/
theorem scoredGraphs_eq_nil (graphs : List GraphRecord) (q : String)
    (h : ∀ g ∈ graphs, (score_graph g q).1 ≤ 0) :
    scoredGraphs graphs q = [] := by
  induction graphs with
  | nil => rfl
  | cons g gs ih =>
    rw [scoredGraphs_cons,
        if_neg (not_lt.mpr (h g (List.mem_cons_self g gs)))]
    exact ih (fun g' hg' => h g' (List.mem_cons_of_mem g hg'))

/-- C2: recommend returns at most k results, each scoring strictly above 0,
sorted non-increasing by score; results with equal scores appear in the
catalog's iteration order (their projection is a sublist of the catalog);
an empty catalog, or one where no record scores above 0, yields the empty
result list. -/
theorem C2_recommend_contract (graphs : List GraphRecord) (q : String)
    (k : Nat) :
    (recommend graphs q k).length ≤ k ∧
    (∀ x ∈ recommend graphs q k, 0 < x.2.1) ∧
    (recommend graphs q k).Sorted rOrder ∧
    (∀ v : Int, List.Sublist
      (((recommend graphs q k).filter (fun x => x.2.1 == v)).map Prod.fst)
      graphs) ∧
    (graphs = [] → recommend graphs q k = []) ∧
    ((∀ g ∈ graphs, (score_graph g q).1 ≤ 0) → recommend graphs q k = []) := by
  refine ⟨?_, ?_, ?_, ?_, ?_, ?_⟩
  · exact List.length_take_le k _
  · intro x hx
    have hx' : x ∈ List.insertionSort rOrder (scoredGraphs graphs q) :=
      List.mem_of_mem_take hx
    rw [List.mem_insertionSort] at hx'
    exact scoredGraphs_pos graphs q x hx'
  · exact (List.sorted_insertionSort rOrder _).sublist
      (List.take_sublist _ _)
  · intro v
    have h1 : List.Sublist
        ((recommend graphs q k).filter (fun x => x.2.1 == v))
        ((List.insertionSort rOrder (scoredGraphs graphs q)).filter
          (fun x => x.2.1 == v)) :=
      (List.take_sublist _ _).filter _
    have h2 : (List.insertionSort rOrder (scoredGraphs graphs q)).filter
        (fun x => x.2.1 == v) =
        (scoredGraphs graphs q).filter (fun x => x.2.1 == v) := by
      refine filter_insertionSort_stable rOrder _ ?_ _
      intro x y hx hy
      have hx' : x.2.1 = v := by simpa using hx
      have hy' : y.2.1 = v := by simpa using hy
      show y.2.1 ≤ x.2.1
      rw [hx', hy']
    rw [h2] at h1
    exact (h1.map Prod.fst).trans
      (scoredGraphs_filter_fst_sublist graphs q _)
  · intro h
    subst h
    simp [recommend, scoredGraphs]
  · intro h
    unfold recommend
    rw [scoredGraphs_eq_nil graphs q h]
    simp

/-- Witness for C2 at concrete inputs: the empty catalog and an
all-nonpositive catalog give empty results, and a concrete returned entry
has positive score. -/
theorem C2_recommend_contract_witness :
    recommend [] "anything" 5 = [] ∧
    recommend [cwaRecord] "simple" 5 = [] ∧
    0 < ((testRecord, (35 : Int),
      "Recommended because name matches " ++ apos ++ "Test Graph" ++ apos ++
        ", name closely matches query, description contains relevant keywords.") :
      GraphRecord × Int × String).2.1 := by
  refine ⟨(C2_recommend_contract [] "anything" 5).2.2.2.2.1 rfl,
    (C2_recommend_contract [cwaRecord] "simple" 5).2.2.2.2.2 (by decide),
    (C2_recommend_contract [testRecord] "test" 3).2.1 _ (by decide)⟩

/-- C3 counterexample: for the record with name "ab" and description "cd",
the query "b c" is found by `search_graphs` (the searchable text separates
the fields with spaces) although it is not a substring of the plain
concatenation of name, description, category and node names, so the
claimed membership condition fails at this input. -/
theorem C3_counterexample :
    search_graphs [abRecord] "b c" = [abRecord] ∧
    strIn (lowerStr "b c") (plainConcat abRecord) = false := by
  constructor
  · decide
  · decide

/-- C3 amended: search returns exactly the records whose space-separated
searchable text (name, description, category and node names joined by
single spaces, lower-cased) contains the lower-cased query, in catalog
insertion order (a sublist of the catalog). -/
theorem C3_search_space_separated (graphs : List GraphRecord) (q : String) :
    List.Sublist (search_graphs graphs q) graphs ∧
    ∀ g, g ∈ search_graphs graphs q ↔
      g ∈ graphs ∧ strIn (lowerStr q) (searchableText g) = true := by
  constructor
  · exact List.filter_sublist _
  · intro g
    exact List.mem_filter

/-- Witness for the amended C3 at a concrete catalog and query. -/
theorem C3_search_space_separated_witness :
    abRecord ∈ search_graphs [abRecord] "b c" ∧
    List.Sublist (search_graphs [abRecord] "b c") [abRecord] :=
  ⟨((C3_search_space_separated [abRecord] "b c").2 abRecord).mpr (by decide),
   (C3_search_space_separated [abRecord] "b c").1⟩

/-- C4 counterexample: rebuilding over a prior state whose docs list holds
`oldDoc` leaves `oldDoc` in the catalog although the current walk produced
only `newDoc`, so a documentation entry is carried over from before the
call. -/
theorem C4_counterexample :
    (build_catalog fsDocs stPrior).1.docs = [oldDoc, newDoc] ∧
    oldDoc ∉ fsDocs.doc_parses.filterMap id := by
  constructor
  · decide
  · decide

/-- C4 amended: a rebuild discards the previous graph records — afterwards
`graphs` holds exactly the records of the current walk — but documentation
records are appended to the docs list without clearing it, so prior doc
entries are carried over. -/
theorem C4_rebuild_semantics (fs : RepoFS) (st : CatalogState) :
    (build_catalog fs st).1.graphs =
      (if fs.root_exists then fs.dyn_parses.filterMap id else []) ∧
    (build_catalog fs st).1.docs =
      st.docs ++ (if fs.root_exists ∧ fs.docs_exists then
        fs.doc_parses.filterMap id else []) := by
  unfold build_catalog
  by_cases hr : fs.root_exists
  · by_cases hd : fs.docs_exists
    · simp [hr, hd]
    · simp [hr, hd]
  · simp [hr]

/-- C5 counterexample: a file whose structured data carries a present but
empty Name value produces a record with an empty name, although the
filename-derived stem "f" is non-empty, so the fallback does not apply. -/
theorem C5_counterexample :
    (extract_record "/tmp/f.dyn" "f.dyn" "f" emptyNameContent).name = "" ∧
    "f" ≠ "" := by
  constructor
  · rfl
  · decide

/-- C5 amended: the name falls back to the file stem exactly when the Name
key is absent; a present Name value is taken verbatim; hence the record
name is non-empty provided the stem is non-empty and any present Name
value is non-empty (a present-but-empty Name yields an empty name). -/
theorem C5_name_default (fp fn stem : String) (c : DynContent) :
    (c.name = none → (extract_record fp fn stem c).name = stem) ∧
    (∀ v, c.name = some v → (extract_record fp fn stem c).name = v) ∧
    (stem ≠ "" → (∀ v, c.name = some v → v ≠ "") →
      (extract_record fp fn stem c).name ≠ "") := by
  refine ⟨?_, ?_, ?_⟩
  · intro h
    unfold extract_record
    simp [h]
  · intro v hv
    unfold extract_record
    simp [hv]
  · intro hs hv
    unfold extract_record
    cases hc : c.name with
    | none => simp [hc, hs]
    | some v =>
      simp [hc]
      exact hv v hc

/-- Witness for the amended C5 at concrete contents. -/
theorem C5_name_default_witness :
    (extract_record "/tmp/f.dyn" "f.dyn" "f" noNameContent).name = "f" ∧
    (extract_record "/tmp/f.dyn" "f.dyn" "f" namedContent).name = "Named" ∧
    (extract_record "/tmp/f.dyn" "f.dyn" "f" namedContent).name ≠ "" := by
  refine ⟨(C5_name_default "/tmp/f.dyn" "f.dyn" "f" noNameContent).1 rfl,
    (C5_name_default "/tmp/f.dyn" "f.dyn" "f" namedContent).2.1 "Named" rfl,
    (C5_name_default "/tmp/f.dyn" "f.dyn" "f" namedContent).2.2
      (by decide) ?_⟩
  intro v hv h0
  rw [h0] at hv
  exact absurd hv (by decide)

/-- C6: the score is non-negative for every record and query, and scoring
is deterministic: equal records and equal queries give equal score and
explanation (the embedding is a pure function of its two arguments, with
no other state). -/
theorem C6_score_nonneg_deterministic :
    (∀ (g : GraphRecord) (q : String), 0 ≤ (score_graph g q).1) ∧
    (∀ (g1 g2 : GraphRecord) (q1 q2 : String), g1 = g2 → q1 = q2 →
      score_graph g1 q1 = score_graph g2 q2) := by
  constructor
  · intro g q
    rw [score_graph_eq_spec]
    exact specScore_nonneg g q
  · rintro g1 g2 q1 q2 rfl rfl
    rfl

/-- Witness for C6 at a concrete record and query. -/
theorem C6_score_nonneg_deterministic_witness :
    0 ≤ (score_graph testRecord "test").1 ∧
    score_graph testRecord "test" = score_graph testRecord "test" :=
  ⟨C6_score_nonneg_deterministic.1 testRecord "test",
   C6_score_nonneg_deterministic.2 testRecord testRecord "test" "test" rfl rfl⟩

/-- Helper fixing the predicate of `List.find?_cons_of_pos` explicitly. -/
theorem find_cons_pos {α : Type _} (p : α → Bool) (a : α) (l : List α)
    (h : p a = true) : List.find? p (a :: l) = some a :=
  List.find?_cons_of_pos l h

/-- Helper fixing the predicate of `List.find?_cons_of_neg` explicitly. -/
theorem find_cons_neg {α : Type _} (p : α → Bool) (a : α) (l : List α)
    (h : ¬ p a = true) : List.find? p (a :: l) = List.find? p l :=
  List.find?_cons_of_neg l h

/-- C7: lookup by name is a case-insensitive exact match returning the
first record in catalog order whose lower-cased name equals the lower-cased
argument, and it returns none exactly when no record matches. -/
theorem C7_get_by_name (graphs : List GraphRecord) (n : String) :
    (get_graph_by_name graphs n = none ↔
      ∀ g ∈ graphs, lowerStr g.name ≠ lowerStr n) ∧
    (∀ r, get_graph_by_name graphs n = some r →
      lowerStr r.name = lowerStr n ∧
      ∃ pre post, graphs = pre ++ r :: post ∧
        ∀ g ∈ pre, lowerStr g.name ≠ lowerStr n) := by
  induction graphs with
  | nil =>
    constructor
    · simp [get_graph_by_name]
    · intro r h
      simp [get_graph_by_name] at h
  | cons g gs ih =>
    by_cases h : lowerStr g.name = lowerStr n
    · have hb : (lowerStr g.name == lowerStr n) = true := beq_iff_eq.mpr h
      constructor
      · constructor
        · intro h0
          unfold get_graph_by_name at h0
          rw [find_cons_pos (fun g' => lowerStr g'.name == lowerStr n) g gs hb] at h0
          exact absurd h0 (by simp)
        · intro hall
          exact absurd h (hall g (List.mem_cons_self g gs))
      · intro r hr
        unfold get_graph_by_name at hr
        rw [find_cons_pos (fun g' => lowerStr g'.name == lowerStr n) g gs hb] at hr
        have hgr : g = r := Option.some.inj hr
        subst hgr
        exact ⟨h, [], gs, rfl, by simp⟩
    · have hb : (lowerStr g.name == lowerStr n) = false :=
        beq_eq_false_iff_ne.mpr h
      have hnb : ¬ ((lowerStr g.name == lowerStr n) = true) := by
        simp [hb]
      constructor
      · have ih1 := ih.1
        unfold get_graph_by_name at ih1 ⊢
        rw [find_cons_neg (fun g' => lowerStr g'.name == lowerStr n) g gs hnb,
          ih1]
        constructor
        · intro hall g' hg'
          rcases List.mem_cons.mp hg' with rfl | hgs
          · exact h
          · exact hall g' hgs
        · intro hall g' hg'
          exact hall g' (List.mem_cons_of_mem g hg')
      · intro r hr
        unfold get_graph_by_name at hr
        rw [find_cons_neg (fun g' => lowerStr g'.name == lowerStr n) g gs hnb]
          at hr
        obtain ⟨hmatch, pre, post, heq, hpre⟩ := ih.2 r hr
        refine ⟨hmatch, g :: pre, post, by rw [heq]; rfl, ?_⟩
        intro g' hg'
        rcases List.mem_cons.mp hg' with rfl | hgs
        · exact h
        · exact hpre g' hgs

/-- Witness for C7 at a concrete catalog: a missing name gives none and a
differently-cased present name matches. -/
theorem C7_get_by_name_witness :
    get_graph_by_name [testRecord] "Nonexistent" = none ∧
    lowerStr testRecord.name = lowerStr "TEST GRAPH" := by
  constructor
  · exact (C7_get_by_name [testRecord] "Nonexistent").1.mpr (by decide)
  · exact ((C7_get_by_name [testRecord] "TEST GRAPH").2 testRecord
      (by decide)).1

/-- C8: rebuild is a total operation on the model (no exception escapes to
the caller): a missing source root yields the cleared catalog and count 0,
and on an existing root the result indexes exactly the successfully parsed
files, so a file whose parse fails (a `none` entry anywhere in the walk) is
skipped while every other file is still indexed. -/
theorem C8_rebuild_error_handling (fs : RepoFS) (st : CatalogState) :
    (fs.root_exists = false →
      build_catalog fs st = ({ graphs := [], docs := st.docs }, 0)) ∧
    (fs.root_exists = true →
      (build_catalog fs st).1.graphs = fs.dyn_parses.filterMap id ∧
      (build_catalog fs st).2 = (fs.dyn_parses.filterMap id).length ∧
      (∀ pre post, fs.dyn_parses = pre ++ none :: post →
        (build_catalog fs st).1.graphs =
          pre.filterMap id ++ post.filterMap id)) := by
  constructor
  · intro h
    simp [build_catalog, h]
  · intro h
    have hg : (build_catalog fs st).1.graphs = fs.dyn_parses.filterMap id := by
      by_cases hd : fs.docs_exists <;> simp [build_catalog, h, hd]
    have hc : (build_catalog fs st).2 =
        (fs.dyn_parses.filterMap id).length := by
      by_cases hd : fs.docs_exists <;> simp [build_catalog, h, hd]
    refine ⟨hg, hc, ?_⟩
    intro pre post hsplit
    rw [hg, hsplit, List.filterMap_append]
    simp

/-- Witness for C8 at concrete file systems: a missing root, and a walk
with one good file and one failing file. -/
theorem C8_rebuild_error_handling_witness :
    build_catalog fsMissing stPrior = ({ graphs := [], docs := [oldDoc] }, 0) ∧
    (build_catalog fsSkip stPrior).1.graphs = [srRecord] ∧
    (build_catalog fsSkip stPrior).2 = 1 := by
  refine ⟨(C8_rebuild_error_handling fsMissing stPrior).1 rfl, ?_, ?_⟩
  · have h := ((C8_rebuild_error_handling fsSkip stPrior).2 rfl).2.2
      [some srRecord] [] rfl
    simpa using h
  · have h := ((C8_rebuild_error_handling fsSkip stPrior).2 rfl).2.1
    simpa using h

/-- C9: the complexity bonus needs node count strictly above 10, so it
never fires for a record with node count at most 10; on the two-record
scenario catalog, recommend for "simple" returns exactly the Simple
Rectangle entry (score 35), ranking it ahead of Complex Wall Analysis,
which does not appear at all. -/
theorem C9_complexity_boundary :
    (∀ (g : GraphRecord) (q : String), g.node_count ≤ 10 → sig6 g q = 0) ∧
    (recommend [srRecord, cwaRecord] "simple" 5).map
      (fun x => (x.1.name, x.2.1)) = [("Simple Rectangle", 35)] ∧
    cwaRecord ∉ (recommend [srRecord, cwaRecord] "simple" 5).map Prod.fst := by
  refine ⟨?_, ?_, ?_⟩
  · intro g q h
    unfold sig6
    rw [if_neg]
    intro hc
    exact absurd hc.2 (not_lt.mpr h)
  · decide
  · decide

/-- Witness for C9: the complexity bonus vanishes at node count exactly 10
even for a query containing "complex". -/
theorem C9_complexity_boundary_witness : sig6 cwaRecord "complex" = 0 :=
  C9_complexity_boundary.1 cwaRecord "complex" (by decide)

/-- The empty character list occurs in every character list. -/
theorem containsL_nil_left (cs : List Char) : containsL [] cs = true := by
  induction cs with
  | nil => rfl
  | cons c rest ih => simp [containsL, startsWithL]

/-- The empty string is a substring of every string. -/
theorem strIn_empty_left (s : String) : strIn "" s = true :=
  containsL_nil_left s.data

/-- With an empty query no node can match. -/
theorem nodeMatches_empty_query (g : GraphRecord) : nodeMatches g "" = 0 := by
  unfold nodeMatches
  have h : intentWords "" = [] := rfl
  rw [h]
  simp

/-- With the empty query every record scores exactly 20, from the name
substring bonus alone, with the corresponding single-clause explanation. -/
theorem score_graph_empty_query (g : GraphRecord) :
    score_graph g "" =
      (20, "Recommended because name closely matches query.") := by
  rw [score_graph_eq_spec]
  have h1 : nameOverlap g "" = 0 := rfl
  have h2 : nameSubstr g "" = true := by
    unfold nameSubstr
    have hl : lowerStr "" = "" := rfl
    rw [hl, strIn_empty_left]
    rfl
  have h3 : descOverlap g "" = 0 := rfl
  have h4 : catOverlap g "" = 0 := rfl
  have h5 : nodeMatches g "" = 0 := nodeMatches_empty_query g
  have h6 : complexityHit "" = false := rfl
  have h7 : simplicityHit "" = false := rfl
  refine Prod.ext ?_ ?_
  · show specScore g "" = 20
    unfold specScore sig1 sig2 sig3 sig4 sig5 sig6 sig7
    simp [h1, h2, h3, h4, h5, h6, h7]
  · show specExplanation g "" = _
    unfold specExplanation specClauses cl1 cl2 cl3 cl4 cl5 cl6 cl7
    simp [h1, h2, h3, h5, h6, h7]
    rfl

/-- With the empty query the scored list keeps every record with score 20
in catalog order. -/
theorem scoredGraphs_empty_query (graphs : List GraphRecord) :
    scoredGraphs graphs "" = graphs.map
      (fun g =>
        (g, (20 : Int), "Recommended because name closely matches query.")) := by
  induction graphs with
  | nil => rfl
  | cons g gs ih =>
    rw [scoredGraphs_cons, score_graph_empty_query]
    simp [ih]

/-- C10: for the empty query every record scores 20 with the fixed
substring-bonus explanation, and recommend returns the first
min(k, catalog size) records in catalog order, not an empty sequence. -/
theorem C10_empty_query_scores_all :
    (∀ g : GraphRecord, score_graph g "" =
      (20, "Recommended because name closely matches query.")) ∧
    (∀ (graphs : List GraphRecord) (k : Nat),
      (recommend graphs "" k).map Prod.fst = graphs.take k ∧
      (recommend graphs "" k).length = min k graphs.length) := by
  refine ⟨score_graph_empty_query, ?_⟩
  intro graphs k
  have hsorted : List.Sorted rOrder (graphs.map
      (fun g =>
        (g, (20 : Int), "Recommended because name closely matches query."))) := by
    exact List.pairwise_map.mpr
      (List.pairwise_of_forall_mem_list (fun a _ b _ => le_refl (20 : Int)))
  have hsort : List.insertionSort rOrder (scoredGraphs graphs "") =
      graphs.map (fun g =>
        (g, (20 : Int), "Recommended because name closely matches query.")) := by
    rw [scoredGraphs_empty_query]
    exact hsorted.insertionSort_eq
  unfold recommend
  rw [hsort]
  constructor
  · rw [← List.map_take, List.map_map]
    have hc : (Prod.fst ∘ fun g : GraphRecord =>
        (g, (20 : Int), "Recommended because name closely matches query.")) =
        fun g => g := rfl
    rw [hc]
    simp
  · simp [List.length_take]
